import Mathlib

/-!
Verification of the document-blueprint pipeline of the `sandc` repository.

Python strings are shallowly embedded as `List Char`; Python dicts as
association lists in insertion order with overwrite-on-duplicate-key
semantics; exceptions as `Except` values.  The outbound LLM network call is
external to the repository and is modelled as an oracle argument supplying
the text response (or the raised exception) of each call, keyed by the data
that determines the prompt; prompt templating itself is pure string
interpolation with no effect on any property below.
-/

namespace Sandc

/-- Python string-whitespace characters (the set used by `str.strip()`):
space, tab, newline, carriage return, vertical tab, form feed. -/
def isPyWs (c : Char) : Bool :=
  c = ' ' || c = '\t' || c = '\n' || c = '\r' || c = '\x0b' || c = '\x0c'

/-- `str.strip()`: remove whitespace from both ends. -/
def pyStrip (s : List Char) : List Char :=
  ((s.dropWhile isPyWs).reverse.dropWhile isPyWs).reverse

/-- `str.lstrip(set)`: remove characters belonging to `set` from the left end. -/
def pyLStripSet (set s : List Char) : List Char :=
  s.dropWhile (fun c => set.contains c)

/-- `str.strip(set)`: remove characters belonging to `set` from both ends. -/
def pyStripSet (set s : List Char) : List Char :=
  ((s.dropWhile (fun c => set.contains c)).reverse.dropWhile
    (fun c => set.contains c)).reverse

/-- `str.lower()` on the ASCII fragment (all inputs in play are ASCII/Latin). -/
def pyLower (s : List Char) : List Char :=
  s.map Char.toLower

/-- Worker for `splitlines`: accumulates the current line (reversed) and
splits at `\r\n`, `\n` or `\r`; a terminator at the very end of the input
does not open a new (empty) final line, matching Python `str.splitlines()`. -/
def splitlinesGo (cur : List Char) : List Char → List (List Char)
  | [] => [cur.reverse]
  | '\r' :: '\n' :: rest =>
      cur.reverse :: (if rest.isEmpty then [] else splitlinesGo [] rest)
  | '\n' :: rest =>
      cur.reverse :: (if rest.isEmpty then [] else splitlinesGo [] rest)
  | '\r' :: rest =>
      cur.reverse :: (if rest.isEmpty then [] else splitlinesGo [] rest)
  | c :: rest => splitlinesGo (c :: cur) rest

/-- `str.splitlines()` on the `\n` / `\r\n` / `\r` line boundaries (the ones
occurring in this repository's data). `""` yields no lines. -/
def splitlines (s : List Char) : List (List Char) :=
  if s.isEmpty then [] else splitlinesGo [] s

/-- `sep.join(parts)`. -/
def joinWith (sep : List Char) : List (List Char) → List Char
  | [] => []
  | [p] => p
  | p :: rest => p ++ sep ++ joinWith sep rest

/-- `haystack.find(needle)`: index of the first occurrence, `-1` if absent. -/
def pyFind (hay needle : List Char) : Int :=
  match ((List.range (hay.length + 1)).filter
      fun i => needle.isPrefixOf (hay.drop i)).head? with
  | some i => (i : Int)
  | none => -1

/-- `haystack.find(needle, start)`: first occurrence at index ≥ `start`. -/
def pyFindFrom (hay needle : List Char) (start : Nat) : Int :=
  match ((List.range (hay.length + 1)).filter
      fun i => start ≤ i && needle.isPrefixOf (hay.drop i)).head? with
  | some i => (i : Int)
  | none => -1

/-- `haystack.rfind(needle)`: index of the last occurrence, `-1` if absent. -/
def pyRFind (hay needle : List Char) : Int :=
  match ((List.range (hay.length + 1)).filter
      fun i => needle.isPrefixOf (hay.drop i)).getLast? with
  | some i => (i : Int)
  | none => -1

/-- `needle in haystack` (Python substring containment). -/
def pyContains (hay needle : List Char) : Bool :=
  0 ≤ pyFind hay needle

/-- Python slice `s[a:b]` for non-negative bounds (the only form the ported
code uses): characters at indices `a ≤ i < b`, clamped to the string. -/
def pySlice (s : List Char) (a b : Nat) : List Char :=
  (s.take b).drop a

/-- `s.split(sep, 1)` when `sep` occurs in `s`: the parts before and after
the first occurrence. -/
def splitOnceOn (sep s : List Char) : List Char × List Char :=
  match pyFind s sep with
  | .ofNat i => (s.take i, s.drop (i + sep.length))
  | .negSucc _ => (s, [])

/-- Python truthiness of a string: non-empty. `a or b` on strings picks `a`
when non-empty, else `b`. -/
def pyOrStr (a b : List Char) : List Char :=
  if a.isEmpty then b else a

/-- Decimal digits of a natural number, as characters. -/
def natDigits (n : Nat) : List Char :=
  (Nat.toDigits 10 n)

/-- `str(n)` for a Python int. -/
def intStr (n : Int) : List Char :=
  if n < 0 then '-' :: natDigits n.natAbs else natDigits n.natAbs

/-- Values produced by Python's `json.loads` on the JSON fragment this
repository exchanges with the model: objects, arrays, double-quoted strings,
integer numerals, booleans and null.  (Non-integer numeric literals never
occur in the data the claims are about and are outside the modelled
fragment.)  Objects are association lists in insertion order. -/
inductive Json where
  | null : Json
  | bool (b : Bool) : Json
  | num (n : Int) : Json
  | str (s : List Char) : Json
  | arr (elems : List Json) : Json
  | obj (members : List (List Char × Json)) : Json

mutual

/-- Structural equality test on `Json`, used only to furnish decidable
equality (the automatic derivation does not handle the nested induction). -/
def Json.beq : Json → Json → Bool
  | .null, .null => true
  | .bool a, .bool b => a == b
  | .num a, .num b => a == b
  | .str a, .str b => a == b
  | .arr a, .arr b => Json.beqList a b
  | .obj a, .obj b => Json.beqMembers a b
  | _, _ => false

def Json.beqList : List Json → List Json → Bool
  | [], [] => true
  | x :: xs, y :: ys => Json.beq x y && Json.beqList xs ys
  | _, _ => false

def Json.beqMembers : List (List Char × Json) → List (List Char × Json) → Bool
  | [], [] => true
  | (k1, v1) :: xs, (k2, v2) :: ys =>
      k1 == k2 && Json.beq v1 v2 && Json.beqMembers xs ys
  | _, _ => false

end

mutual

theorem Json.beq_iff (a b : Json) : Json.beq a b = true ↔ a = b := by
  cases a with
  | null => cases b <;> simp [Json.beq]
  | bool x => cases b <;> simp [Json.beq]
  | num x => cases b <;> simp [Json.beq]
  | str x => cases b <;> simp [Json.beq]
  | arr xs =>
      cases b <;> simp [Json.beq]
      exact Json.beqList_iff xs _
  | obj kvs =>
      cases b <;> simp [Json.beq]
      exact Json.beqMembers_iff kvs _

theorem Json.beqList_iff (xs ys : List Json) :
    Json.beqList xs ys = true ↔ xs = ys := by
  cases xs with
  | nil => cases ys <;> simp [Json.beqList]
  | cons x xs =>
      cases ys with
      | nil => simp [Json.beqList]
      | cons y ys =>
          simp [Json.beqList, Json.beq_iff x y, Json.beqList_iff xs ys]

theorem Json.beqMembers_iff (xs ys : List (List Char × Json)) :
    Json.beqMembers xs ys = true ↔ xs = ys := by
  cases xs with
  | nil => cases ys <;> simp [Json.beqMembers]
  | cons kv xs =>
      cases ys with
      | nil => obtain ⟨k1, v1⟩ := kv; simp [Json.beqMembers]
      | cons kv2 ys =>
          obtain ⟨k1, v1⟩ := kv
          obtain ⟨k2, v2⟩ := kv2
          simp [Json.beqMembers, Json.beq_iff v1 v2,
            Json.beqMembers_iff xs ys, Prod.ext_iff]

end

instance : DecidableEq Json := fun a b =>
  decidable_of_iff (Json.beq a b = true) (Json.beq_iff a b)

/-- Kernel-reducible decidable equality for `Except` (absent from the
libraries in scope), so concrete runs can be settled by `decide`. -/
def ExceptDecEq {ε α : Type} [DecidableEq ε] [DecidableEq α] :
    (a b : Except ε α) → Decidable (a = b)
  | .ok a, .ok b =>
      if h : a = b then .isTrue (by rw [h]) else .isFalse (by simp [h])
  | .error a, .error b =>
      if h : a = b then .isTrue (by rw [h]) else .isFalse (by simp [h])
  | .ok _, .error _ => .isFalse (by simp)
  | .error _, .ok _ => .isFalse (by simp)

instance {ε α : Type} [DecidableEq ε] [DecidableEq α] :
    DecidableEq (Except ε α) := ExceptDecEq

/-- Python truthiness of a parsed JSON value (`if v:`). -/
def Json.isTruthy : Json → Bool
  | .null => false
  | .bool b => b
  | .num n => n ≠ 0
  | .str s => !s.isEmpty
  | .arr xs => !xs.isEmpty
  | .obj kvs => !kvs.isEmpty

/-- `dict.get(k)` on the association-list model: value of the first (unique)
matching key. -/
def dictGet? {α : Type} (kvs : List (List Char × α)) (k : List Char) : Option α :=
  match kvs.find? (fun kv => kv.1 = k) with
  | some kv => some kv.2
  | none => none

/-- `d[k] = v` on a Python dict: overwrite in place when the key exists
(keeping its original position), else append. -/
def dictInsert {α : Type} (kvs : List (List Char × α)) (k : List Char) (v : α) :
    List (List Char × α) :=
  if kvs.any (fun kv => kv.1 = k) then
    kvs.map (fun kv => if kv.1 = k then (k, v) else kv)
  else
    kvs ++ [(k, v)]

mutual

/-- Python `repr()` of a parsed JSON value (string escaping inside `repr` of a
string is omitted: no claim input exercises it). -/
def Json.pyRepr : Json → List Char
  | .null => "None".data
  | .bool b => if b then "True".data else "False".data
  | .num n => intStr n
  | .str s => '\'' :: s ++ ['\'']
  | .arr xs => '[' :: Json.pyReprArr xs ++ [']']
  | .obj kvs => '{' :: Json.pyReprObj kvs ++ ['}']

def Json.pyReprArr : List Json → List Char
  | [] => []
  | [x] => x.pyRepr
  | x :: rest => x.pyRepr ++ ", ".data ++ Json.pyReprArr rest

def Json.pyReprObj : List (List Char × Json) → List Char
  | [] => []
  | [(k, v)] => '\'' :: k ++ '\'' :: ':' :: ' ' :: v.pyRepr
  | (k, v) :: rest =>
      '\'' :: k ++ '\'' :: ':' :: ' ' :: v.pyRepr ++ ", ".data
        ++ Json.pyReprObj rest

end

/-- Python `str()` of a parsed JSON value. -/
def Json.pyStr : Json → List Char
  | .str s => s
  | v => v.pyRepr

-- --------------------------------------------------
-- json.loads (modelled external: Python standard library), on the JSON
-- fragment above.  Strict mode: unescaped control characters inside string
-- literals and trailing commas are parse errors, exactly the failures the
-- repository's repair ladder exists to fix.
-- --------------------------------------------------

/-- JSON structural whitespace. -/
def isJsonWs (c : Char) : Bool :=
  c = ' ' || c = '\t' || c = '\n' || c = '\r'

def skipWs (s : List Char) : List Char :=
  s.dropWhile isJsonWs

def hexVal? (c : Char) : Option Nat :=
  if '0' ≤ c ∧ c ≤ '9' then some (c.toNat - '0'.toNat)
  else if 'a' ≤ c ∧ c ≤ 'f' then some (c.toNat - 'a'.toNat + 10)
  else if 'A' ≤ c ∧ c ≤ 'F' then some (c.toNat - 'A'.toNat + 10)
  else none

/-- Parse the body of a JSON string literal (after the opening quote),
returning content and remainder after the closing quote.  Rejects unescaped
control characters (code points below 0x20), as `json.loads` does in its
default strict mode. -/
def parseStringBody : List Char → Option (List Char × List Char)
  | [] => none
  | '"' :: rest => some ([], rest)
  | '\\' :: e :: rest => do
      match e with
      | '"' => let (s, r) ← parseStringBody rest; some ('"' :: s, r)
      | '\\' => let (s, r) ← parseStringBody rest; some ('\\' :: s, r)
      | '/' => let (s, r) ← parseStringBody rest; some ('/' :: s, r)
      | 'b' => let (s, r) ← parseStringBody rest; some ('\x08' :: s, r)
      | 'f' => let (s, r) ← parseStringBody rest; some ('\x0c' :: s, r)
      | 'n' => let (s, r) ← parseStringBody rest; some ('\n' :: s, r)
      | 'r' => let (s, r) ← parseStringBody rest; some ('\r' :: s, r)
      | 't' => let (s, r) ← parseStringBody rest; some ('\t' :: s, r)
      | 'u' =>
          match rest with
          | h1 :: h2 :: h3 :: h4 :: rest' => do
              let a ← hexVal? h1
              let b ← hexVal? h2
              let c ← hexVal? h3
              let d ← hexVal? h4
              let n := ((a * 16 + b) * 16 + c) * 16 + d
              let (s, r) ← parseStringBody rest'
              some (Char.ofNat n :: s, r)
          | _ => none
      | _ => none
  | c :: rest =>
      if c.toNat < 0x20 then none
      else do
        let (s, r) ← parseStringBody rest
        some (c :: s, r)

/-- Parse an integer JSON numeral: optional minus, then `0` or a nonzero
digit followed by digits, not followed by a fraction/exponent (which would
lie outside the modelled fragment). -/
def parseIntNumeral (s : List Char) : Option (Int × List Char) :=
  let (neg, s1) := match s with
    | '-' :: r => (true, r)
    | r => (false, r)
  let ds := s1.takeWhile Char.isDigit
  let rest := s1.drop ds.length
  if ds.isEmpty then none
  else if ds.length > 1 ∧ ds.head? = some '0' then none
  else
    match rest with
    | '.' :: _ => none
    | 'e' :: _ => none
    | 'E' :: _ => none
    | _ =>
        let n : Nat := ds.foldl (fun acc c => acc * 10 + (c.toNat - '0'.toNat)) 0
        some (if neg then -(n : Int) else (n : Int), rest)

mutual

/-- One JSON value at the head of the input (fuel-indexed recursion). -/
def parseValue (fuel : Nat) (s : List Char) : Option (Json × List Char) :=
  match fuel with
  | 0 => none
  | fuel + 1 =>
    match skipWs s with
    | [] => none
    | '"' :: rest => do
        let (str, r) ← parseStringBody rest
        some (.str str, r)
    | '{' :: rest => parseMembers fuel (skipWs rest) [] true
    | '[' :: rest => parseElems fuel (skipWs rest) [] true
    | 't' :: 'r' :: 'u' :: 'e' :: rest => some (.bool true, rest)
    | 'f' :: 'a' :: 'l' :: 's' :: 'e' :: rest => some (.bool false, rest)
    | 'n' :: 'u' :: 'l' :: 'l' :: rest => some (.null, rest)
    | s' => do
        let (n, rest) ← parseIntNumeral s'
        some (.num n, rest)

/-- Members of an object, after `{` (whitespace already skipped); `first`
records whether no member has been read yet (so `}` is allowed). -/
def parseMembers (fuel : Nat) (s : List Char)
    (acc : List (List Char × Json)) (first : Bool) :
    Option (Json × List Char) :=
  match fuel with
  | 0 => none
  | fuel + 1 =>
    match s with
    | '}' :: rest => if first then some (.obj acc, rest) else none
    | '"' :: rest => do
        let (k, r1) ← parseStringBody rest
        match skipWs r1 with
        | ':' :: r2 => do
            let (v, r3) ← parseValue fuel r2
            let acc := dictInsert acc k v
            match skipWs r3 with
            | ',' :: r4 => parseMembers fuel (skipWs r4) acc false
            | '}' :: r4 => some (.obj acc, r4)
            | _ => none
        | _ => none
    | _ => none

/-- Elements of an array, after `[` (whitespace already skipped). -/
def parseElems (fuel : Nat) (s : List Char)
    (acc : List Json) (first : Bool) : Option (Json × List Char) :=
  match fuel with
  | 0 => none
  | fuel + 1 =>
    match s with
    | ']' :: rest => if first then some (.arr acc.reverse, rest) else none
    | _ => do
        let (v, r1) ← parseValue fuel s
        match skipWs r1 with
        | ',' :: r2 => parseElems fuel (skipWs r2) (v :: acc) false
        | ']' :: r2 => some (.arr (v :: acc).reverse, r2)
        | _ => none

end

/-- Modelled from the spec: Python's `json.loads` (the repository parses all
model output with it), restricted to the JSON fragment described at `Json`.
Fails (returns `none`, i.e. raises `JSONDecodeError`) on trailing commas,
unescaped control characters inside strings, and trailing extra data. -/
def json_loads (s : List Char) : Option Json := do
  let (v, rest) ← parseValue (2 * s.length + 2) s
  if (skipWs rest).isEmpty then some v else none

-- --------------------------------------------------
-- backend/utils/text_utils.py
-- --------------------------------------------------

/-- `re.sub(r",\s*X", "X", s)` for a closing bracket `X` (`]` or `}`):
replace every comma followed by optional whitespace and the bracket by the
bracket alone, scanning left to right (Python regex `\s` is the same
character set as `isPyWs`). -/
def subCommaCloseGo (close : Char) : Nat → List Char → List Char
  | 0, s => s
  | _, [] => []
  | fuel + 1, c :: rest =>
    if c = ',' then
      let ws := rest.takeWhile isPyWs
      match rest.drop ws.length with
      | c2 :: rest2 =>
          if c2 = close then close :: subCommaCloseGo close fuel rest2
          else c :: subCommaCloseGo close fuel rest
      | [] => c :: subCommaCloseGo close fuel rest
    else c :: subCommaCloseGo close fuel rest

def subCommaClose (close : Char) (s : List Char) : List Char :=
  subCommaCloseGo close s.length s

/-- The character-scan loop of `_escape_newlines_in_json_strings`
(`in_string` and `escape` state passed explicitly). -/
def escapeNlGo (inString escape : Bool) : List Char → List Char
  | [] => []
  | c :: rest =>
    if !inString then
      c :: escapeNlGo (c = '"') false rest
    else if escape then
      c :: escapeNlGo true false rest
    else if c = '\\' then
      c :: escapeNlGo true true rest
    else if c = '"' then
      c :: escapeNlGo false false rest
    else if c = '\n' then
      '\\' :: 'n' :: escapeNlGo true false rest
    else if c = '\r' then
      '\\' :: 'r' :: escapeNlGo true false rest
    else if c = '\t' then
      '\\' :: 't' :: escapeNlGo true false rest
    else
      c :: escapeNlGo true false rest

/-- `Replace raw newlines and tabs inside JSON string values with \n and \t.` -/
def _escape_newlines_in_json_strings (s : List Char) : List Char :=
  escapeNlGo false false s

/-- `Try json.loads; optionally fix trailing commas, escape newlines in
strings, and retry.` -/
def _try_parse (s : List Char) : Option Json :=
  match json_loads s with
  | some v => some v
  | none =>
    match json_loads (subCommaClose '}' (subCommaClose ']' s)) with
    | some v => some v
    | none =>
      let fixed := _escape_newlines_in_json_strings s
      match json_loads fixed with
      | some v => some v
      | none => json_loads (subCommaClose '}' (subCommaClose ']' fixed))

/-- Outcome of the inner brace-matching loop of `extract_json_from_llm`
(`found` = `return parsed`, `chunkFailed` = `break` out of both loops,
`neverClosed` = the loop ran to completion, `for ... else: continue`). -/
inductive ScanOutcome where
  | found (v : Json)
  | chunkFailed
  | neverClosed

/-- The `for i in range(idx, len(text))` depth-counting scan: `s` is the
text from index `i` on, `depth`/`inStr`/`escape` the loop state. -/
def braceScanGo (text : List Char) (startc endc : Char) :
    List Char → Nat → Int → Option Char → Bool → ScanOutcome
  | [], _, _, _, _ => .neverClosed
  | c :: rest, i, depth, inStr, escape =>
    if escape then
      braceScanGo text startc endc rest (i + 1) depth inStr false
    else if c = '\\' && inStr.isSome then
      braceScanGo text startc endc rest (i + 1) depth inStr true
    else if inStr.isSome then
      if some c = inStr then
        braceScanGo text startc endc rest (i + 1) depth none false
      else
        braceScanGo text startc endc rest (i + 1) depth inStr false
    else if c = '"' || c = '\'' then
      braceScanGo text startc endc rest (i + 1) depth (some c) false
    else if c = startc then
      braceScanGo text startc endc rest (i + 1) (depth + 1) none false
    else if c = endc then
      if depth - 1 = 0 then
        match _try_parse (pySlice text (((pyFind text [startc]).toNat)) (i + 1)) with
        | some v => .found v
        | none => .chunkFailed
      else
        braceScanGo text startc endc rest (i + 1) (depth - 1) none false
    else
      braceScanGo text startc endc rest (i + 1) depth none false

/-- One `(start_char, end_char)` iteration of the outer loop:
`idx = text.find(start_char)`; `-1` means `continue` (same observable
outcome as a scan that never closes). -/
def bracePair (text : List Char) (startc endc : Char) : ScanOutcome :=
  match pyFind text [startc] with
  | .negSucc _ => .neverClosed
  | .ofNat idx => braceScanGo text startc endc (text.drop idx) idx 0 none false

/-- The error message of the final `raise` (`!r` string-escaping inside the
repr of the snippet is omitted; no claim input exercises it). -/
def snippetMsg (text : List Char) : List Char :=
  let snippet := if text.length > 400 then text.take 400 ++ "...".data else text
  ("LLM did not return valid JSON. Try shorter documents or check the "
    ++ "model response. Raw snippet: ").data ++ '\'' :: snippet ++ ['\'']

/-- `Parse JSON from LLM response, stripping markdown code blocks and extra
text.`  `Except.error` models the raised `ValueError`. -/
def extract_json_from_llm (response : List Char) : Except (List Char) Json :=
  if (pyStrip response).isEmpty then
    .error "LLM returned empty response. Check API key, quota, and model.".data
  else
    let text := pyStrip response
    let text :=
      if pyContains text "```".data then
        let start := (pyFind text "```".data).toNat
        let start :=
          if "```json".data.isPrefixOf (text.drop start) then start + 7
          else if pyContains (text.drop start) ['\n'] then
            (pyFindFrom text ['\n'] start).toNat + 1
          else start + 3
        let endI := pyRFind text "```".data
        if (start : Int) < endI then pyStrip (pySlice text start endI.toNat)
        else text
      else text
    if text.isEmpty then
      .error "LLM returned no JSON. It may have returned an error message instead.".data
    else
      let text :=
        if 0 < pyFind text ['{'] then
          pyStrip (text.drop (pyFind text ['{']).toNat)
        else if 0 < pyFind text ['['] then
          pyStrip (text.drop (pyFind text ['[']).toNat)
        else text
      match _try_parse text with
      | some parsed => .ok parsed
      | none =>
        match bracePair text '{' '}' with
        | .found v => .ok v
        | .chunkFailed => .error (snippetMsg text)
        | .neverClosed =>
          match bracePair text '[' ']' with
          | .found v => .ok v
          | _ => .error (snippetMsg text)

/-- Run-collapsing step of `re.sub(" +", " ", s)` (fuel-indexed; the fuel
is the input length, always sufficient since every step consumes at least
one character). -/
def collapseSpacesGo : Nat → List Char → List Char
  | 0, s => s
  | _, [] => []
  | fuel + 1, c :: rest =>
    if c = ' ' then ' ' :: collapseSpacesGo fuel (rest.dropWhile (· = ' '))
    else c :: collapseSpacesGo fuel rest

def collapseSpaces (s : List Char) : List Char :=
  collapseSpacesGo s.length s

/-- Run-collapsing step of `re.sub("\n{3,}", "\n\n", s)`: runs of three or
more newlines become exactly two; shorter runs are untouched. -/
def collapseNewlinesGo : Nat → List Char → List Char
  | 0, s => s
  | _, [] => []
  | fuel + 1, c :: rest =>
    if c = '\n' then
      let run := rest.takeWhile (· = '\n')
      if 3 ≤ run.length + 1 then
        '\n' :: '\n' :: collapseNewlinesGo fuel (rest.drop run.length)
      else '\n' :: collapseNewlinesGo fuel rest
    else c :: collapseNewlinesGo fuel rest

def collapseNewlines (s : List Char) : List Char :=
  collapseNewlinesGo s.length s

/-- `clean_text` from `text_utils.py`: tabs to spaces, collapse space runs,
collapse blank-line runs, strip. -/
def clean_text (t : List Char) : List Char :=
  pyStrip (collapseNewlines (collapseSpaces
    (t.map (fun c => if c = '\t' then ' ' else c))))

-- --------------------------------------------------
-- backend/blueprint/generator.py
-- --------------------------------------------------

def MAX_RETRIES : Nat := 3

def SECTION_KEYS : List (List Char) :=
  ["sections".data, "Sections".data, "items".data, "results".data,
   "blocks".data, "parts".data, "structure".data, "outline".data,
   "section_list".data, "chapters".data]

def _DEFAULT_COMPLAINT_SECTIONS : List (List Char × List Char) :=
  [("Case Caption".data,
    "Court name, county, case index number, and parties.".data),
   ("Summons Notice".data,
    "Notice to defendant of obligation to respond and deadline.".data),
   ("Venue and Jurisdiction".data,
    "Statement of venue and jurisdictional basis.".data),
   ("Attorney and Party Details".data,
    "Plaintiff's attorney and party contact information.".data),
   ("Defendant Service Information".data,
    "Where and how defendants are to be served.".data),
   ("Complaint Introduction".data,
    "Introductory paragraph(s) and nature of the action.".data),
   ("Jurisdictional Facts".data,
    "Facts supporting jurisdiction and venue.".data),
   ("Cause of Action".data,
    "Statement of causes of action and legal claims.".data),
   ("Factual Allegations".data,
    "Numbered factual allegations describing events.".data),
   ("Damages and Relief Claim".data,
    "Prayer for damages and requested relief.".data),
   ("Signature Block".data,
    "Plaintiff or attorney signature block.".data),
   ("Attorney Verification or Affirmation".data,
    "Verification or affirmation by attorney.".data),
   ("Filing and Certification Page".data,
    "Filing instructions, certification, and proof of service.".data)]

def _DEFAULT_MOTION_SECTIONS : List (List Char × List Char) :=
  [("Case Caption".data, "Court, case number, and parties.".data),
   ("Notice of Motion".data, "Notice of motion hearing and relief sought.".data),
   ("Affidavit in Support".data, "Sworn factual affidavit supporting motion.".data),
   ("Memorandum of Law".data, "Legal argument and citations.".data),
   ("Conclusion and Prayer".data, "Requested ruling and relief.".data),
   ("Signature Block".data, "Attorney signature and contact info.".data)]

/-- The `for k in SECTION_KEYS` loop of `_find_sections_list`: first key
whose value is a non-empty list. -/
def findByKeys (kvs : List (List Char × Json)) : List (List Char) → Option (List Json)
  | [] => none
  | k :: ks =>
    match dictGet? kvs k with
    | some (.arr xs) => if xs.isEmpty then findByKeys kvs ks else some xs
    | _ => findByKeys kvs ks

mutual

/-- `Find list of sections inside arbitrary JSON.` -/
def _find_sections_list : Json → Option (List Json)
  | .arr xs => if xs.isEmpty then none else some xs
  | .obj kvs =>
      if (dictGet? kvs "name".data).isSome then some [.obj kvs]
      else
        match findByKeys kvs SECTION_KEYS with
        | some v => some v
        | none => findInValues kvs
  | _ => none

/-- The `for v in data.values()` loop: first non-empty list value, else
recurse into dict values (a recursive result that is `None` or an empty
list is falsy and the loop continues). -/
def findInValues : List (List Char × Json) → Option (List Json)
  | [] => none
  | (_, .arr xs) :: rest =>
      if xs.isEmpty then findInValues rest else some xs
  | (_, .obj kvs) :: rest =>
      (match _find_sections_list (.obj kvs) with
       | some l => if l.isEmpty then findInValues rest else some l
       | none => findInValues rest)
  | _ :: rest => findInValues rest

end

/-- Python `a or b or ...` chain over `item.get(k)` lookups: the first
truthy value. -/
def firstTruthy (kvs : List (List Char × Json)) : List (List Char) → Option Json
  | [] => none
  | k :: ks =>
    match dictGet? kvs k with
    | some v => if v.isTruthy then some v else firstTruthy kvs ks
    | none => firstTruthy kvs ks

/-- `Convert section item to (name, purpose).` -/
def _section_item_to_pair : Json → Option (List Char × List Char)
  | .obj kvs =>
      (match firstTruthy kvs
          ["name".data, "Name".data, "title".data, "section".data,
           "heading".data] with
       | some name =>
           let purpose := (firstTruthy kvs
             ["purpose".data, "Purpose".data, "description".data]).getD (.str [])
           some (pyStrip name.pyStr, pyStrip purpose.pyStr)
       | none => none)
  | .str s => if (pyStrip s).isEmpty then none else some (pyStrip s, [])
  | _ => none

/-- `Guess document type using heuristics.` -/
def _guess_doc_type (text : List Char) : List Char :=
  let t := pyLower text
  if pyContains t "summons".data && pyContains t "complaint".data then
    "complaint".data
  else if pyContains t "notice of motion".data || pyContains t "motion".data then
    "motion".data
  else if pyContains t "petition".data then "petition".data
  else if pyContains t "affidavit".data then "affidavit".data
  else "unknown".data

/-- `re.sub(r"^\d+[.)]\s*", "", line)`: strip one leading `N.` or `N)`
(with trailing whitespace) when present. -/
def stripLeadingNumber (line : List Char) : List Char :=
  let ds := line.takeWhile Char.isDigit
  if ds.isEmpty then line
  else
    match line.drop ds.length with
    | c :: rest =>
        if c = '.' || c = ')' then rest.dropWhile isPyWs else line
    | [] => line

/-- The purpose separators tried in order: em dash, en dash, hyphen, colon. -/
def SEPS : List (List Char) := [" — ".data, " – ".data, " - ".data, ": ".data]

/-- The `for sep in (...)` loop with its `for ... else` clause: `none`
models `break` without appending (separator found but empty name). -/
def sepLoop (rest : List Char) : List (List Char) → Option (List Char × List Char)
  | [] => some (rest, [])
  | sep :: seps =>
    if pyContains rest sep then
      let (a, b) := splitOnceOn sep rest
      let name := pyStrip a
      let purpose := pyStrip b
      if name.isEmpty then none else some (name, purpose)
    else sepLoop rest seps

/-- `Parse discovery phase output (numbered lines) into (name, purpose)
pairs.` -/
def _parse_discovery_list (raw : List Char) : List (List Char × List Char) :=
  (splitlines raw).foldl (fun out line =>
    let line := pyStrip line
    if line.isEmpty then out
    else
      let rest := pyStrip (stripLeadingNumber line)
      if rest.isEmpty then out
      else
        match sepLoop rest SEPS with
        | some p => out ++ [p]
        | none => out) []

/-- A section dict `{"id": ..., "name": ..., "purpose": ...}`. -/
structure SectionDict where
  id : Nat
  name : List Char
  purpose : List Char
deriving DecidableEq

/-- The dict returned by `BlueprintGenerator.generate`; `none` in
`fallback_used` / `error` models a dict without that key. -/
structure Blueprint where
  sections : List SectionDict
  fallback_used : Option Bool := none
  error : Option (List Char) := none
deriving DecidableEq

/-- `Return fallback sections.` -/
def _fallback_sections (doc_type : List Char) : List SectionDict :=
  let base := if doc_type = "motion".data then _DEFAULT_MOTION_SECTIONS
    else _DEFAULT_COMPLAINT_SECTIONS
  base.mapIdx (fun i np => ⟨i + 1, np.1, np.2⟩)

/-- The `{"id": i + 1, "name": n, "purpose": p or ""}` comprehension applied
to parsed discovery pairs. -/
def enumSections (pairs : List (List Char × List Char)) : List SectionDict :=
  pairs.mapIdx (fun i np => ⟨i + 1, np.1, pyOrStr np.2 []⟩)

/-- The `output` loop of a structuring attempt: normalize each item,
appending with `id = len(output) + 1`. -/
def buildStructOutput (sections : List Json) : List SectionDict :=
  sections.foldl (fun output item =>
    match _section_item_to_pair item with
    | some np => output ++ [⟨output.length + 1, np.1, np.2⟩]
    | none => output) []

/-- The body of one structuring attempt after the model answered:
extraction, section-list location, normalization, validation.  `.error`
carries the message of the exception the attempt raises. -/
def processStructAttempt (response : List Char) : Except (List Char) (List SectionDict) :=
  match extract_json_from_llm response with
  | .error e => .error e
  | .ok data =>
    match _find_sections_list data with
    | none => .error "No sections found in structured output".data
    | some sections =>
      let output := buildStructOutput sections
      if output.length < 5 then
        .error ("Too few sections: ".data ++ natDigits output.length)
      else if output.any (fun s => s.name.isEmpty) then
        .error "Empty section name detected".data
      else .ok output

/-- The LLM service (external; spec §6): responses of the discovery call
(keyed by the two cleaned documents interpolated into its prompt) and of
each structuring attempt (same prompt every time; keyed by attempt number
because the remote model is nondeterministic).  `.error` models the call
raising. -/
structure LLMOracle where
  discovery : List Char → List Char → Except (List Char) (List Char)
  structuring : Nat → Except (List Char) (List Char)

/-- Trace of issued LLM calls, recording the data each prompt is built
from. -/
inductive LLMCall where
  | discovery (doc1 doc2 : List Char)
  | structuring (rawList : List Char)
deriving DecidableEq

/-- Net result of structuring attempt `i` (call plus processing). -/
def attemptResult (oracle : LLMOracle) (i : Nat) : Except (List Char) (List SectionDict) :=
  match oracle.structuring i with
  | .error e => .error e
  | .ok resp => processStructAttempt resp

/-- The `for attempt in range(1, MAX_RETRIES + 1)` loop, returning the
successful output (if any), the number of calls issued, and `last_error`. -/
def structAttempts (oracle : LLMOracle) :
    Nat → Nat → Option (List Char) →
    Option (List SectionDict) × Nat × Option (List Char)
  | _, 0, lastError => (none, 0, lastError)
  | i, r + 1, lastError =>
    match attemptResult oracle i with
    | .ok out => (some out, 1, lastError)
    | .error e =>
        let (res, calls, le) := structAttempts oracle (i + 1) r (some e)
        (res, calls + 1, le)

/-- `BlueprintGenerator.generate`, two-phase extraction with the fallback
ladder, also returning the trace of issued LLM calls. -/
def generate (oracle : LLMOracle) (doc1 doc2 : List Char) :
    Blueprint × List LLMCall :=
  let doc1 := clean_text doc1
  let doc2 := clean_text doc2
  let combined := doc1 ++ '\n' :: doc2
  let doc_type := _guess_doc_type combined
  match oracle.discovery doc1 doc2 with
  | .error e =>
      ({ sections := _fallback_sections doc_type,
         fallback_used := some true, error := some e },
       [.discovery doc1 doc2])
  | .ok raw_list =>
      let parsed := _parse_discovery_list raw_list
      if 5 ≤ parsed.length then
        ({ sections := enumSections parsed }, [.discovery doc1 doc2])
      else
        let (res, nCalls, lastError) := structAttempts oracle 0 MAX_RETRIES none
        let calls := LLMCall.discovery doc1 doc2 ::
          List.replicate nCalls (.structuring raw_list)
        match res with
        | some output => ({ sections := output }, calls)
        | none =>
          let parsed2 := _parse_discovery_list raw_list
          if 5 ≤ parsed2.length then
            ({ sections := enumSections parsed2 }, calls)
          else
            ({ sections := _fallback_sections doc_type,
               fallback_used := some true,
               error := some (lastError.getD "None".data) }, calls)

-- --------------------------------------------------
-- backend/extractor/section_extractor.py
-- --------------------------------------------------

def _EXTRACT_DOC_CHARS : Nat := 12000

/-- The `for k, v in data.items()` case-insensitive key scan of
`extract_one_section` (`break` on the first hit). -/
def ciKeyScan (name : List Char) : List (List Char × Json) → Option Json
  | [] => none
  | (k, v) :: rest =>
    if !k.isEmpty && pyLower (pyStrip k) = pyLower name then some v
    else ciKeyScan name rest

/-- The `val` resolution of `extract_one_section`: `data.get(section_name)`
followed by the case-insensitive key scan.  A JSON `null` value is Python
`None`, indistinguishable from an absent key (and the scan breaks on its
first hit even when that hit is `null`). -/
def sectionValue? (kvs : List (List Char × Json)) (section_name : List Char) :
    Option Json :=
  let val : Option Json :=
    match dictGet? kvs section_name with
    | some .null => none
    | some v => some v
    | none => none
  match val with
  | some v => some v
  | none =>
    match ciKeyScan section_name kvs with
    | some .null => none
    | some v => some v
    | none => none

/-- `Ask LLM to extract a single section; returns extracted text or ''.`
The oracle supplies the model response for the prompt built from the
document chunk and the section name (only `ValueError` from the extractor
is caught in the source, matching the `Except`-free oracle type). -/
def extract_one_section (oracle : List Char → List Char → List Char)
    (doc section_name : List Char) : List Char :=
  let chunk := doc.take _EXTRACT_DOC_CHARS
  let response := oracle chunk section_name
  match extract_json_from_llm response with
  | .error _ => []
  | .ok data =>
    match data with
    | .obj kvs =>
        (match sectionValue? kvs section_name with
         | none => []
         | some v => pyStrip (match v with | .str s => s | _ => v.pyStr))
    | _ => []

/-- `SectionExtractor.extract`: one call per named section, results keyed by
section name.  The optional progress callback of the source is
side-effect-only and cannot alter the result, so it is not modelled. -/
def SectionExtractor.extract (oracle : List Char → List Char → List Char)
    (doc : List Char) (blueprint : Blueprint) : List (List Char × List Char) :=
  let section_names := blueprint.sections.filterMap
    (fun s => if s.name.isEmpty then none else some s.name)
  if section_names.isEmpty then []
  else
    section_names.foldl (fun result name =>
      if name.isEmpty then result
      else dictInsert result name (extract_one_section oracle doc name)) []

-- --------------------------------------------------
-- backend/formatting_assigner.py
-- --------------------------------------------------

/-- `int(float(s))` on the numeral forms in play (optional sign, decimal
digits with an optional fraction): truncation toward zero; `none` models the
raised `ValueError`. -/
def parseFloatTrunc (s : List Char) : Option Int :=
  let t := pyStrip s
  let (neg, t1) : Bool × List Char :=
    match t with
    | '-' :: r => (true, r)
    | '+' :: r => (false, r)
    | r => (false, r)
  let intDs := t1.takeWhile Char.isDigit
  let rest := t1.drop intDs.length
  let (fracDs, rest2) : List Char × List Char :=
    match rest with
    | '.' :: r => (r.takeWhile Char.isDigit, r.drop (r.takeWhile Char.isDigit).length)
    | r => ([], r)
  if rest2.isEmpty && !(intDs.isEmpty && fracDs.isEmpty) then
    let n : Nat := intDs.foldl (fun acc c => acc * 10 + (c.toNat - '0'.toNat)) 0
    some (if neg then -(n : Int) else (n : Int))
  else none

/-- `int(val) if isinstance(val, int) else int(float(val))`: Python bools
are ints (`int(True) = 1`); strings go through `float`; other parsed JSON
values make `float()` raise `TypeError` (modelled as `none`). -/
def coerceSpecIndex : Json → Option Int
  | .num n => some n
  | .bool b => some (if b then 1 else 0)
  | .str s => parseFloatTrunc s
  | _ => none

/-- The fallback key scan of `assign_formatting_by_llm`:
`str(k).strip() == name or k.strip().lower() == name.lower()`, `break` on
the first hit. -/
def assignKeyScan (name : List Char) : List (List Char × Json) → Option Json
  | [] => none
  | (k, v) :: rest =>
    if pyStrip k = name || pyLower (pyStrip k) = pyLower name then some v
    else assignKeyScan name rest

/-- The `val` resolution of `assign_formatting_by_llm`: exact key, else the
scan; a JSON `null` is Python `None`, i.e. unresolved (and the scan breaks
on its first hit even when that hit is `null`). -/
def assignResolve (kvs : List (List Char × Json)) (name : List Char) :
    Option Json :=
  let val : Option Json :=
    match dictGet? kvs name with
    | some .null => none
    | some v => some v
    | none => none
  match val with
  | some v => some v
  | none =>
    match assignKeyScan name kvs with
    | some .null => none
    | some v => some v
    | none => none

/-- Value assigned to one section name: resolve, coerce, clamp into
`[0, n-1]`; default `0` when missing, `null`, or uncoercible. -/
def assignedIndex (kvs : List (List Char × Json)) (name : List Char)
    (n : Nat) : Int :=
  match assignResolve kvs name with
  | some v =>
    match coerceSpecIndex v with
    | some idx => max 0 (min idx ((n : Int) - 1))
    | none => 0
  | none => 0

/-- `assign_formatting_by_llm`: the oracle is the single model response for
the assignment prompt (pure templating of the section names and the
one-line applyable summaries); the second component records whether the
model was called at all.  `applyables` are the formatting-spec dicts; only
their number and prompt summary matter here. -/
def assign_formatting_by_llm (oracle : Except (List Char) (List Char))
    (section_names : List (List Char)) (applyables : List Json) :
    Option (List (List Char × Int)) × Bool :=
  if section_names.isEmpty || applyables.isEmpty then (none, false)
  else
    match oracle with
    | .error _ => (none, true)
    | .ok response =>
      match extract_json_from_llm response with
      | .error _ => (none, true)
      | .ok data =>
        match data with
        | .obj kvs =>
            let n := applyables.length
            (some (section_names.foldl (fun result name =>
              dictInsert result name (assignedIndex kvs name n)) []), true)
        | _ => (none, true)

-- --------------------------------------------------
-- backend/assembler/assembler.py
-- --------------------------------------------------

/-- `first.lstrip(".#0123456789) ").strip().strip("*_")` applied to the
(already `.strip()`-ed) first line: normalization of a candidate title
line. -/
def normalizeTitleLine (first : List Char) : List Char :=
  pyStripSet "*_".data
    (pyStrip (pyLStripSet ".#0123456789) ".data (pyStrip first)))

/-- `section_name.strip().strip("*_")`: normalization of the section name. -/
def normalizeSectionName (section_name : List Char) : List Char :=
  pyStripSet "*_".data (pyStrip section_name)

/-- `Remove a leading line if it is the section name/title, so sections
read as one flow.` -/
def _strip_leading_section_title (text section_name : List Char) : List Char :=
  if text.isEmpty || section_name.isEmpty then text
  else
    match splitlines (pyStrip text) with
    | [] => text
    | first :: restLines =>
      if pyLower (normalizeTitleLine first) =
          pyLower (normalizeSectionName section_name) then
        let rest := pyStrip (joinWith ['\n'] restLines)
        if rest.isEmpty then text else rest
      else text

/-- `Join generated sections in blueprint order into one document (no
section titles in body).` -/
def assemble (blueprint : Blueprint)
    (sections : List (List Char × List Char)) : List Char :=
  joinWith "\n\n".data (blueprint.sections.foldl (fun parts s =>
    let text := pyStrip ((dictGet? sections s.name).getD [])
    let text := _strip_leading_section_title text s.name
    if text.isEmpty then parts else parts ++ [text]) [])

-- --------------------------------------------------
-- format.py: line-spacing interpretation (get_paragraph_formatting,
-- lines 96-104)
-- --------------------------------------------------

/-- `pf.line_spacing` as python-docx yields it: a plain float (spacing
expressed as a multiple of lines) or a `Length` (EMU count) — the two
representations of the one underlying field.  Values are exact rationals;
float rounding, a display concern, is not modelled. -/
inductive LineSpacingValue where
  | plain (q : ℚ)
  | length (emu : ℚ)
deriving DecidableEq

/-- The raw number Python sees in comparisons and arithmetic (`Length` is
an `int` subclass counting EMUs). -/
def LineSpacingValue.raw : LineSpacingValue → ℚ
  | .plain q => q
  | .length e => e

/-- Python truthiness of the stored value (`elif pf.line_spacing:`). -/
def LineSpacingValue.pyTruthy (v : LineSpacingValue) : Bool :=
  v.raw ≠ 0

/-- `format_unit(value, "pt")`: `value.pt` for a `Length` (EMU / 12700),
else `value / 12700`. -/
def format_unit_pt (v : LineSpacingValue) : ℚ :=
  match v with
  | .length e => e / 12700
  | .plain q => q / 12700

/-- The three shapes of the reported line-spacing string: `"Single"`,
`"(q) lines"`, `"(q) pt"` (numeric display rounding omitted). -/
inductive LineSpacingDisplay where
  | single
  | lines (q : ℚ)
  | pt (q : ℚ)
deriving DecidableEq

/-- Lines 96-104 of `format.py`: rule 0 (`wdLineSpaceSingle`) or a falsy
stored value report `Single`; otherwise a stored value under 10 is reported
as a multiple of lines and a value at or above 10 as exact points. -/
def get_line_spacing (line_spacing_rule : Option Int)
    (line_spacing : Option LineSpacingValue) : LineSpacingDisplay :=
  if line_spacing_rule = some 0 then .single
  else
    match line_spacing with
    | some v =>
        if v.pyTruthy then
          if v.raw < 10 then .lines v.raw else .pt (format_unit_pt v)
        else .single
    | none => .single

-- --------------------------------------------------
-- Helper lemmas
-- --------------------------------------------------

theorem pyOrStr_empty_right (a : List Char) : pyOrStr a [] = a := by
  cases a <;> simp [pyOrStr]

theorem mapIdx_sections_ids {α : Type} (f : Nat → α → SectionDict)
    (hf : ∀ i a, (f i a).id = i + 1) (l : List α) :
    (l.mapIdx f).map SectionDict.id = List.range' 1 l.length := by
  apply List.ext_getElem
  · simp
  · intro i h1 h2
    simp [List.getElem_mapIdx, hf, List.getElem_range']
    omega

theorem enumSections_length (ps : List (List Char × List Char)) :
    (enumSections ps).length = ps.length := by
  simp [enumSections]

theorem enumSections_map_id (ps : List (List Char × List Char)) :
    (enumSections ps).map SectionDict.id = List.range' 1 ps.length :=
  mapIdx_sections_ids _ (fun _ _ => rfl) ps

theorem enumSections_map_name (ps : List (List Char × List Char)) :
    (enumSections ps).map SectionDict.name = ps.map Prod.fst := by
  apply List.ext_getElem
  · simp [enumSections]
  · intro i h1 h2
    simp [enumSections, List.getElem_mapIdx]

theorem enumSections_map_purpose (ps : List (List Char × List Char)) :
    (enumSections ps).map SectionDict.purpose = ps.map Prod.snd := by
  apply List.ext_getElem
  · simp [enumSections]
  · intro i h1 h2
    simp [enumSections, List.getElem_mapIdx, pyOrStr_empty_right]

-- --------------------------------------------------
-- Claim theorems
-- --------------------------------------------------

theorem fallback_sections_length (dt : List Char) :
    5 ≤ (_fallback_sections dt).length := by
  unfold _fallback_sections
  split <;> decide

theorem fallback_sections_ids (dt : List Char) :
    (_fallback_sections dt).map SectionDict.id =
      List.range' 1 (_fallback_sections dt).length := by
  unfold _fallback_sections
  rw [mapIdx_sections_ids _ (fun _ _ => rfl)]
  simp

theorem buildStructOutput_go (l : List Json) :
    ∀ acc : List SectionDict,
      acc.map SectionDict.id = List.range' 1 acc.length →
      (l.foldl (fun output item =>
        match _section_item_to_pair item with
        | some np => output ++ [⟨output.length + 1, np.1, np.2⟩]
        | none => output) acc).map SectionDict.id =
      List.range' 1 (l.foldl (fun output item =>
        match _section_item_to_pair item with
        | some np => output ++ [⟨output.length + 1, np.1, np.2⟩]
        | none => output) acc).length := by
  induction l with
  | nil => intro acc h; simpa using h
  | cons x l ih =>
      intro acc h
      simp only [List.foldl_cons]
      cases _section_item_to_pair x with
      | none => exact ih acc h
      | some np =>
          apply ih
          simp [h, List.range'_1_concat, Nat.add_comm]

theorem buildStructOutput_ids (sections : List Json) :
    (buildStructOutput sections).map SectionDict.id =
      List.range' 1 (buildStructOutput sections).length :=
  buildStructOutput_go sections [] (by simp)

theorem processStructAttempt_ok (resp : List Char) (out : List SectionDict)
    (h : processStructAttempt resp = .ok out) :
    5 ≤ out.length ∧
    out.map SectionDict.id = List.range' 1 out.length := by
  cases hj : extract_json_from_llm resp with
  | error e =>
      simp only [processStructAttempt, hj] at h
      simp at h
  | ok data =>
      simp only [processStructAttempt, hj] at h
      cases hf : _find_sections_list data with
      | none =>
          simp only [hf] at h
          simp at h
      | some sections =>
          simp only [hf] at h
          split_ifs at h with h5 hname
          · cases h
            exact ⟨by omega, buildStructOutput_ids sections⟩

theorem structAttempts_some_processed (oracle : LLMOracle) :
    ∀ (r i : Nat) (le : Option (List Char)) (out : List SectionDict)
      (calls : Nat) (le2 : Option (List Char)),
      structAttempts oracle i r le = (some out, calls, le2) →
      ∃ resp, processStructAttempt resp = .ok out := by
  intro r
  induction r with
  | zero =>
      intro i le out calls le2 h
      simp [structAttempts] at h
  | succ r ih =>
      intro i le out calls le2 h
      simp only [structAttempts] at h
      cases ha : attemptResult oracle i with
      | ok o =>
          rw [ha] at h
          simp at h
          obtain ⟨ho, -, -⟩ := h
          cases hs : oracle.structuring i with
          | error e2 =>
              have he : attemptResult oracle i = .error e2 := by
                simp [attemptResult, hs]
              rw [he] at ha
              simp at ha
          | ok resp =>
              have hpr : attemptResult oracle i = processStructAttempt resp := by
                simp [attemptResult, hs]
              rw [hpr] at ha
              exact ⟨resp, by rw [ha, ho]⟩
      | error e =>
          rw [ha] at h
          simp only [] at h
          rcases hsa2 : structAttempts oracle (i + 1) r (some e) with ⟨res', calls', le'⟩
          rw [hsa2] at h
          simp at h
          obtain ⟨h1, -, -⟩ := h
          exact ih (i + 1) (some e) out calls' le' (by rw [hsa2, h1])

/-- C6 counterexample: on a successful path (here the discovery early
exit), the returned dict is `{"sections": ...}` alone — it has no
`fallback_used` key at all (modelled by `fallback_used = none`), so the
claim that every returned blueprint "carries fallback_used as a boolean"
fails at this concrete input. -/
theorem generate_success_lacks_fallback_used_key :
    (generate
      { discovery := fun _ _ =>
          .ok "1. A — a\n2. B — b\n3. C — c\n4. D — d\n5. E — e".data
        structuring := fun _ => .error "unused".data }
      "doc".data "ref".data).1.fallback_used = none := by
  decide

/-- C6 amended: every blueprint returned by `generate`, on every path,
contains at least 5 sections whose `id` fields equal their 1-based position
in the list; `fallback_used` is `True` on the fallback paths and absent
(not a boolean) on the success paths. -/
theorem generate_blueprint_invariant (oracle : LLMOracle)
    (d1 d2 : List Char) :
    5 ≤ (generate oracle d1 d2).1.sections.length ∧
    (generate oracle d1 d2).1.sections.map SectionDict.id =
      List.range' 1 (generate oracle d1 d2).1.sections.length ∧
    ((generate oracle d1 d2).1.fallback_used = none ∨
     (generate oracle d1 d2).1.fallback_used = some true) := by
  rcases hdisc : oracle.discovery (clean_text d1) (clean_text d2) with e | raw
  · refine ⟨?_, ?_, Or.inr ?_⟩ <;>
      simp [generate, hdisc, fallback_sections_length, fallback_sections_ids]
  · by_cases hlen : 5 ≤ (_parse_discovery_list raw).length
    · refine ⟨?_, ?_, Or.inl ?_⟩ <;>
        simp [generate, hdisc, hlen, enumSections_length, enumSections_map_id]
    · rcases hsa : structAttempts oracle 0 MAX_RETRIES none with ⟨res, calls, le2⟩
      cases res with
      | some out =>
          obtain ⟨resp, hresp⟩ :=
            structAttempts_some_processed oracle MAX_RETRIES 0 none out calls le2 hsa
          obtain ⟨h5, hids⟩ := processStructAttempt_ok resp out hresp
          refine ⟨?_, ?_, Or.inl ?_⟩ <;>
            simp [generate, hdisc, hlen, hsa, h5, hids]
      | none =>
          refine ⟨?_, ?_, Or.inr ?_⟩ <;>
            simp [generate, hdisc, hlen, hsa, fallback_sections_length,
              fallback_sections_ids]

/-- C1: if the discovery call returns text from which the discovery-list
parser extracts at least 5 `(name, purpose)` pairs, `generate` returns
exactly those pairs as the blueprint's sections — ids `1..n` in parse
order, names and purposes as parsed (an empty purpose stays `""`) — and the
only LLM call issued is the discovery call itself: the structuring call is
never made. -/
theorem generate_early_exit_skips_structuring (oracle : LLMOracle)
    (d1 d2 raw : List Char)
    (hdisc : oracle.discovery (clean_text d1) (clean_text d2) = .ok raw)
    (hlen : 5 ≤ (_parse_discovery_list raw).length) :
    (generate oracle d1 d2).1 =
      { sections := enumSections (_parse_discovery_list raw) } ∧
    (enumSections (_parse_discovery_list raw)).map SectionDict.id =
      List.range' 1 (_parse_discovery_list raw).length ∧
    (enumSections (_parse_discovery_list raw)).map SectionDict.name =
      (_parse_discovery_list raw).map Prod.fst ∧
    (enumSections (_parse_discovery_list raw)).map SectionDict.purpose =
      (_parse_discovery_list raw).map Prod.snd ∧
    (generate oracle d1 d2).2 =
      [LLMCall.discovery (clean_text d1) (clean_text d2)] := by
  refine ⟨?_, enumSections_map_id _, enumSections_map_name _,
    enumSections_map_purpose _, ?_⟩ <;>
    simp [generate, hdisc, hlen]

/-- C1 witness: a concrete oracle whose discovery answer parses to 5 pairs. -/
theorem generate_early_exit_skips_structuring_witness :
    let oracle : LLMOracle :=
      { discovery := fun _ _ =>
          .ok "1. A — a\n2. B — b\n3. C\n4. D - d\n5. E: e".data
        structuring := fun _ => .error "unused".data }
    (generate oracle "doc one".data "doc two".data).1 =
      { sections := enumSections (_parse_discovery_list
          "1. A — a\n2. B — b\n3. C\n4. D - d\n5. E: e".data) } ∧
    (generate oracle "doc one".data "doc two".data).2 =
      [LLMCall.discovery (clean_text "doc one".data)
        (clean_text "doc two".data)] := by
  have h := generate_early_exit_skips_structuring
    { discovery := fun _ _ =>
        .ok "1. A — a\n2. B — b\n3. C\n4. D - d\n5. E: e".data
      structuring := fun _ => .error "unused".data }
    "doc one".data "doc two".data
    "1. A — a\n2. B — b\n3. C\n4. D - d\n5. E: e".data rfl (by decide)
  exact ⟨h.1, h.2.2.2.2⟩

/-- C3: if the discovery call raises, `generate` returns the template
fallback: `fallback_used = True`, `error` the exception's message, and the
sections are the 6-section motion template exactly when the keyword
heuristic classifies the combined cleaned documents as `"motion"`, else the
13-section complaint template. -/
theorem generate_discovery_failure_uses_template (oracle : LLMOracle)
    (d1 d2 e : List Char)
    (hdisc : oracle.discovery (clean_text d1) (clean_text d2) = .error e) :
    (generate oracle d1 d2).1.fallback_used = some true ∧
    (generate oracle d1 d2).1.error = some e ∧
    (generate oracle d1 d2).1.sections =
      (if _guess_doc_type (clean_text d1 ++ '\n' :: clean_text d2) =
          "motion".data
       then _DEFAULT_MOTION_SECTIONS.mapIdx (fun i np => ⟨i + 1, np.1, np.2⟩)
       else _DEFAULT_COMPLAINT_SECTIONS.mapIdx
         (fun i np => ⟨i + 1, np.1, np.2⟩)) := by
  refine ⟨?_, ?_, ?_⟩
  · simp [generate, hdisc]
  · simp [generate, hdisc]
  · simp [generate, hdisc, _fallback_sections]
    split <;> rfl

theorem structAttempts_calls_le (oracle : LLMOracle) :
    ∀ (r i : Nat) (le : Option (List Char)),
      (structAttempts oracle i r le).2.1 ≤ r := by
  intro r
  induction r with
  | zero => intro i le; simp [structAttempts]
  | succ r ih =>
      intro i le
      simp only [structAttempts]
      cases attemptResult oracle i with
      | ok out => simp
      | error e =>
          have h := ih (i + 1) (some e)
          simp
          exact h

theorem structAttempts_three_failures (oracle : LLMOracle)
    (e0 e1 e2 : List Char) (le : Option (List Char))
    (h0 : attemptResult oracle 0 = .error e0)
    (h1 : attemptResult oracle 1 = .error e1)
    (h2 : attemptResult oracle 2 = .error e2) :
    structAttempts oracle 0 3 le = (none, 3, some e2) := by
  show structAttempts oracle 0 (2 + 1) le = _
  simp [structAttempts, h0, h1, h2]

/-- C4: when the structuring phase is entered (the discovery text parsed to
fewer than 5 pairs), at most `MAX_RETRIES = 3` structuring calls are made,
all with the prompt built from the same discovery text; if the first `k`
attempts fail and attempt `k` (`k < 3`) succeeds, its sections are returned
immediately after exactly `k + 1` structuring calls; if all 3 attempts
fail, exactly 3 structuring calls were issued. -/
theorem generate_structuring_retry_semantics (oracle : LLMOracle)
    (d1 d2 raw : List Char)
    (hdisc : oracle.discovery (clean_text d1) (clean_text d2) = .ok raw)
    (hlt : (_parse_discovery_list raw).length < 5) :
    (∃ n, n ≤ MAX_RETRIES ∧ (generate oracle d1 d2).2 =
        LLMCall.discovery (clean_text d1) (clean_text d2) ::
          List.replicate n (.structuring raw)) ∧
    (∀ k out, k < MAX_RETRIES →
      (∀ j, j < k → ∃ e, attemptResult oracle j = .error e) →
      attemptResult oracle k = .ok out →
      (generate oracle d1 d2).1 = { sections := out } ∧
      (generate oracle d1 d2).2 =
        LLMCall.discovery (clean_text d1) (clean_text d2) ::
          List.replicate (k + 1) (.structuring raw)) ∧
    ((∀ j, j < MAX_RETRIES → ∃ e, attemptResult oracle j = .error e) →
      (generate oracle d1 d2).2 =
        LLMCall.discovery (clean_text d1) (clean_text d2) ::
          List.replicate MAX_RETRIES (.structuring raw)) := by
  have hnle : ¬ (5 ≤ (_parse_discovery_list raw).length) := by omega
  refine ⟨?_, ?_, ?_⟩
  · refine ⟨(structAttempts oracle 0 MAX_RETRIES none).2.1,
      structAttempts_calls_le oracle MAX_RETRIES 0 none, ?_⟩
    simp only [generate, hdisc, hnle, if_false]
    cases h : structAttempts oracle 0 MAX_RETRIES none with
    | mk res rest =>
      cases res <;> cases rest <;> simp_all
  · intro k out hk hfailed hok
    have hk3 : k < 3 := by simpa [MAX_RETRIES] using hk
    have hsa : ∃ le, structAttempts oracle 0 MAX_RETRIES none =
        (some out, k + 1, le) := by
      clear hk
      interval_cases k
      · refine ⟨none, ?_⟩
        show structAttempts oracle 0 (2 + 1) none = _
        simp [structAttempts, hok]
      · obtain ⟨e0, h0⟩ := hfailed 0 (by omega)
        refine ⟨some e0, ?_⟩
        show structAttempts oracle 0 (2 + 1) none = _
        simp [structAttempts, h0, hok]
      · obtain ⟨e0, h0⟩ := hfailed 0 (by omega)
        obtain ⟨e1, h1⟩ := hfailed 1 (by omega)
        refine ⟨some e1, ?_⟩
        show structAttempts oracle 0 (2 + 1) none = _
        simp [structAttempts, h0, h1, hok]
    obtain ⟨le, hsa⟩ := hsa
    constructor <;> simp [generate, hdisc, hnle, hsa]
  · intro hfail
    obtain ⟨e0, h0⟩ := hfail 0 (by norm_num [MAX_RETRIES])
    obtain ⟨e1, h1⟩ := hfail 1 (by norm_num [MAX_RETRIES])
    obtain ⟨e2, h2⟩ := hfail 2 (by norm_num [MAX_RETRIES])
    have hsa := structAttempts_three_failures oracle e0 e1 e2 none h0 h1 h2
    simp [generate, hdisc, hnle, MAX_RETRIES, hsa, hlt]

/-- C4 witness: attempt 0 fails (non-JSON reply), attempt 1 succeeds with a
5-item list, so exactly 2 structuring calls are made and its sections are
returned. -/
theorem generate_structuring_retry_semantics_witness :
    let oracle : LLMOracle :=
      { discovery := fun _ _ => .ok "no numbered lines here".data
        structuring := fun i => if i = 1 then
            .ok "[\"Sec A\", \"Sec B\", \"Sec C\", \"Sec D\", \"Sec E\"]".data
          else .error "bad json".data }
    (generate oracle "doc".data "ref".data).1 =
      { sections := [⟨1, "Sec A".data, []⟩, ⟨2, "Sec B".data, []⟩,
          ⟨3, "Sec C".data, []⟩, ⟨4, "Sec D".data, []⟩,
          ⟨5, "Sec E".data, []⟩] } ∧
    (generate oracle "doc".data "ref".data).2 =
      LLMCall.discovery (clean_text "doc".data) (clean_text "ref".data) ::
        List.replicate 2 (.structuring "no numbered lines here".data) := by
  intro oracle
  have h := (generate_structuring_retry_semantics oracle "doc".data "ref".data
    "no numbered lines here".data rfl (by decide)).2.1 1
    [⟨1, "Sec A".data, []⟩, ⟨2, "Sec B".data, []⟩, ⟨3, "Sec C".data, []⟩,
     ⟨4, "Sec D".data, []⟩, ⟨5, "Sec E".data, []⟩]
    (by norm_num [MAX_RETRIES])
    (by
      intro j hj
      interval_cases j
      exact ⟨"bad json".data, rfl⟩)
    (by decide)
  exact ⟨h.1, h.2⟩

/-- C5: once structuring is entered (discovery parsed to fewer than 5
pairs) and all 3 attempts fail, the re-parse fallback re-applies the pure
`_parse_discovery_list` to the unchanged discovery text, so it again yields
fewer than 5 pairs and `generate` always lands on the hardcoded template
fallback. -/
theorem generate_reparse_cannot_rescue (oracle : LLMOracle)
    (d1 d2 raw : List Char)
    (hdisc : oracle.discovery (clean_text d1) (clean_text d2) = .ok raw)
    (hlt : (_parse_discovery_list raw).length < 5)
    (hfail : ∀ j, j < MAX_RETRIES → ∃ e, attemptResult oracle j = .error e) :
    (generate oracle d1 d2).1.sections =
      _fallback_sections
        (_guess_doc_type (clean_text d1 ++ '\n' :: clean_text d2)) ∧
    (generate oracle d1 d2).1.fallback_used = some true := by
  have hnle : ¬ (5 ≤ (_parse_discovery_list raw).length) := by omega
  obtain ⟨e0, h0⟩ := hfail 0 (by norm_num [MAX_RETRIES])
  obtain ⟨e1, h1⟩ := hfail 1 (by norm_num [MAX_RETRIES])
  obtain ⟨e2, h2⟩ := hfail 2 (by norm_num [MAX_RETRIES])
  have hsa := structAttempts_three_failures oracle e0 e1 e2 none h0 h1 h2
  constructor <;> simp [generate, hdisc, hnle, MAX_RETRIES, hsa]

/-- C5 witness: every structuring reply is malformed; the result is the
complaint template with the fallback flag set. -/
theorem generate_reparse_cannot_rescue_witness :
    let oracle : LLMOracle :=
      { discovery := fun _ _ => .ok "prose without numbering".data
        structuring := fun _ => .error "timeout".data }
    (generate oracle "some text".data "more".data).1.sections =
      _fallback_sections
        (_guess_doc_type (clean_text "some text".data ++ '\n' ::
          clean_text "more".data)) ∧
    (generate oracle "some text".data "more".data).1.fallback_used =
      some true := by
  intro oracle
  exact generate_reparse_cannot_rescue oracle "some text".data "more".data
    "prose without numbering".data rfl (by decide)
    (fun j _ => ⟨"timeout".data, rfl⟩)

theorem dictGet_cons {α : Type} (k : List Char) (v : α)
    (kvs : List (List Char × α)) (x : List Char) :
    dictGet? ((k, v) :: kvs) x = if k = x then some v else dictGet? kvs x := by
  by_cases h : k = x <;> simp [dictGet?, List.find?_cons, h]

theorem dictGet_map_overwrite_eq {α : Type} (x : List Char) (v : α)
    (kvs : List (List Char × α))
    (hany : kvs.any (fun kv => kv.1 = x)) :
    dictGet? (kvs.map (fun kv => if kv.1 = x then (x, v) else kv)) x =
      some v := by
  induction kvs with
  | nil => simp at hany
  | cons kv rest ih =>
      obtain ⟨k1, v1⟩ := kv
      by_cases hk : k1 = x
      · simp [hk, dictGet_cons]
      · simp only [List.any_cons] at hany
        simp only [List.map_cons]
        rw [if_neg (by simpa using hk)]
        rw [dictGet_cons, if_neg hk]
        apply ih
        rw [Bool.or_eq_true] at hany
        rcases hany with h2 | h2
        · exact absurd (of_decide_eq_true h2) hk
        · exact h2

theorem dictGet_map_overwrite_ne {α : Type} (k x : List Char) (v : α)
    (kvs : List (List Char × α)) (hx : x ≠ k) :
    dictGet? (kvs.map (fun kv => if kv.1 = k then (k, v) else kv)) x =
      dictGet? kvs x := by
  induction kvs with
  | nil => simp
  | cons kv rest ih =>
      obtain ⟨k1, v1⟩ := kv
      by_cases hk : k1 = k
      · simp only [List.map_cons]
        rw [if_pos (by simpa using hk)]
        rw [dictGet_cons, if_neg (fun h => hx h.symm), ih,
          dictGet_cons, if_neg (by rw [hk]; exact fun h => hx h.symm)]
      · simp only [List.map_cons]
        rw [if_neg (by simpa using hk)]
        rw [dictGet_cons, ih, dictGet_cons]

theorem dictGet_append_single {α : Type} (k x : List Char) (v : α)
    (kvs : List (List Char × α)) :
    dictGet? (kvs ++ [(k, v)]) x =
      match dictGet? kvs x with
      | some w => some w
      | none => if k = x then some v else none := by
  induction kvs with
  | nil =>
      show dictGet? [(k, v)] x = _
      rw [dictGet_cons]
      by_cases h : k = x <;> simp [h, dictGet?]
  | cons kv rest ih =>
      obtain ⟨k1, v1⟩ := kv
      by_cases hk : k1 = x
      · simp only [List.cons_append]
        rw [dictGet_cons, if_pos hk, dictGet_cons, if_pos hk]
      · simp only [List.cons_append]
        rw [dictGet_cons, if_neg hk, dictGet_cons, if_neg hk, ih]

theorem dictGet_none_of_not_any {α : Type} (k : List Char)
    (kvs : List (List Char × α))
    (hany : ¬ kvs.any (fun kv => kv.1 = k)) :
    dictGet? kvs k = none := by
  induction kvs with
  | nil => simp [dictGet?]
  | cons kv rest ih =>
      obtain ⟨k1, v1⟩ := kv
      simp only [List.any_cons, Bool.or_eq_true, not_or] at hany
      rw [dictGet_cons, if_neg (fun h => hany.1 (decide_eq_true h))]
      exact ih hany.2

theorem dictGet_dictInsert {α : Type} (k x : List Char) (v : α)
    (kvs : List (List Char × α)) :
    dictGet? (dictInsert kvs k v) x =
      if x = k then some v else dictGet? kvs x := by
  unfold dictInsert
  by_cases hany : kvs.any (fun kv => kv.1 = k)
  · rw [if_pos hany]
    by_cases hx : x = k
    · rw [if_pos hx, hx]
      exact dictGet_map_overwrite_eq k v kvs hany
    · rw [if_neg hx, dictGet_map_overwrite_ne k x v kvs hx]
  · rw [if_neg hany, dictGet_append_single]
    by_cases hx : x = k
    · rw [if_pos hx, hx, dictGet_none_of_not_any k kvs hany]
      simp
    · rw [if_neg hx]
      cases h2 : dictGet? kvs x with
      | none => simp [Ne.symm hx]
      | some w => rfl

theorem extractFold_get (f : List Char → List Char)
    (names : List (List Char)) (hne : ∀ n ∈ names, ¬n.isEmpty) :
    ∀ (acc : List (List Char × List Char)) (x : List Char),
      dictGet? (names.foldl (fun result name =>
        if name.isEmpty then result
        else dictInsert result name (f name)) acc) x =
      if x ∈ names then some (f x) else dictGet? acc x := by
  induction names with
  | nil => simp
  | cons n ns ih =>
      intro acc x
      have hn : n.isEmpty = false := by
        have := hne n (by simp)
        simpa using this
      simp only [List.foldl_cons]
      rw [show (if n.isEmpty = true then acc
            else dictInsert acc n (f n)) = dictInsert acc n (f n) by
          simp [hn]]
      rw [ih (fun m hm => hne m (by simp [hm])) (dictInsert acc n (f n)) x]
      by_cases hx : x ∈ ns
      · simp [hx]
      · by_cases hxn : x = n <;>
          simp [hx, hxn, dictGet_dictInsert]

/-- C7: per-section extraction failures are isolated.  Whatever every model
response is, `SectionExtractor.extract` completes with one entry per named
section of the blueprint (its value being that section's
`extract_one_section` result) — no single section's failure aborts the
batch or escapes `extract` — and whenever the response for a section fails
to parse, parses to a non-dict, or holds no value under the exact or
case-insensitive section-name key, `extract_one_section` yields the empty
string for that section. -/
theorem sectionExtract_isolates_failures
    (oracle : List Char → List Char → List Char)
    (doc : List Char) (bp : Blueprint) :
    (∀ name ∈ bp.sections.filterMap
        (fun s => if s.name.isEmpty then none else some s.name),
      dictGet? (SectionExtractor.extract oracle doc bp) name =
        some (extract_one_section oracle doc name)) ∧
    (∀ name : List Char,
      ((∃ e, extract_json_from_llm (oracle (doc.take _EXTRACT_DOC_CHARS) name)
          = .error e) ∨
       (∃ kvs, extract_json_from_llm (oracle (doc.take _EXTRACT_DOC_CHARS) name)
          = .ok (.obj kvs) ∧ sectionValue? kvs name = none)) →
      extract_one_section oracle doc name = []) := by
  constructor
  · intro name hname
    have hne : ∀ n ∈ bp.sections.filterMap
        (fun s => if s.name.isEmpty then none else some s.name), ¬n.isEmpty := by
      intro n hn
      obtain ⟨s, -, hs⟩ := List.mem_filterMap.mp hn
      by_cases h : s.name.isEmpty <;> simp [h] at hs
      exact hs ▸ h
    have hnonempty : ¬ (bp.sections.filterMap
        (fun s => if s.name.isEmpty then none else some s.name)).isEmpty := by
      cases hl : bp.sections.filterMap
        (fun s => if s.name.isEmpty then none else some s.name) with
      | nil => rw [hl] at hname; simp at hname
      | cons a l => simp
    unfold SectionExtractor.extract
    rw [if_neg (by simpa using hnonempty),
      extractFold_get (extract_one_section oracle doc) _ hne [] name,
      if_pos hname]
  · intro name hcase
    rcases hcase with ⟨e, he⟩ | ⟨kvs, hok, hval⟩
    · simp [extract_one_section, he]
    · simp [extract_one_section, hok, hval]

set_option maxHeartbeats 4000000 in
/-- C7 witness: two sections; the reply for `A` is valid, the reply for `B`
is not JSON — `B` degrades to the empty string and both entries are
present. -/
theorem sectionExtract_isolates_failures_witness :
    let oracle : List Char → List Char → List Char := fun _ n =>
      if n = "A".data then "\x7b\"A\": \"body text\"\x7d".data
      else "no json here".data
    let bp : Blueprint :=
      { sections := [⟨1, "A".data, []⟩, ⟨2, "B".data, []⟩] }
    dictGet? (SectionExtractor.extract oracle "doc".data bp) "A".data =
      some "body text".data ∧
    dictGet? (SectionExtractor.extract oracle "doc".data bp) "B".data =
      some [] ∧
    extract_one_section oracle "doc".data "B".data = [] := by
  intro oracle bp
  have h := sectionExtract_isolates_failures oracle "doc".data bp
  refine ⟨?_, ?_, ?_⟩
  · have := h.1 "A".data (by decide)
    rw [this]
    decide
  · have := h.1 "B".data (by decide)
    rw [this]
    decide
  · exact h.2 "B".data (Or.inl ⟨snippetMsg "no json here".data, by decide⟩)

theorem mem_dictInsert {α : Type} (kvs : List (List Char × α))
    (k x : List Char) (w v : α) (h : (x, v) ∈ dictInsert kvs k w) :
    (x, v) ∈ kvs ∨ x = k := by
  unfold dictInsert at h
  split at h
  · obtain ⟨kv, hmem, himg⟩ := List.mem_map.mp h
    by_cases hk : kv.1 = k
    · right
      rw [if_pos hk] at himg
      exact (Prod.mk.injEq _ _ _ _ ▸ himg).1.symm
    · left
      rw [if_neg hk] at himg
      exact himg ▸ hmem
  · rcases List.mem_append.mp h with h | h
    · exact Or.inl h
    · right
      simp at h
      exact h.1

theorem assignFold_get (g : List Char → Int) (names : List (List Char)) :
    ∀ (acc : List (List Char × Int)) (x : List Char),
      dictGet? (names.foldl (fun result name =>
        dictInsert result name (g name)) acc) x =
      if x ∈ names then some (g x) else dictGet? acc x := by
  induction names with
  | nil => simp
  | cons n ns ih =>
      intro acc x
      simp only [List.foldl_cons]
      rw [ih (dictInsert acc n (g n)) x]
      by_cases hx : x ∈ ns
      · simp [hx]
      · by_cases hxn : x = n <;> simp [hx, hxn, dictGet_dictInsert]

theorem assignFold_keys (g : List Char → Int) (names : List (List Char)) :
    ∀ (acc : List (List Char × Int)) (x : List Char) (v : Int),
      (x, v) ∈ names.foldl (fun result name =>
        dictInsert result name (g name)) acc →
      (x, v) ∈ acc ∨ x ∈ names := by
  induction names with
  | nil => intro acc x v h; exact Or.inl (by simpa using h)
  | cons n ns ih =>
      intro acc x v h
      simp only [List.foldl_cons] at h
      rcases ih (dictInsert acc n (g n)) x v h with h2 | h2
      · rcases mem_dictInsert acc n x (g n) v h2 with h3 | h3
        · exact Or.inl h3
        · exact Or.inr (by simp [h3])
      · exact Or.inr (by simp [h2])

theorem assignedIndex_range (kvs : List (List Char × Json))
    (name : List Char) (n : Nat) (hn : 1 ≤ n) :
    0 ≤ assignedIndex kvs name n ∧
    assignedIndex kvs name n ≤ (n : Int) - 1 := by
  have h1 : (1 : Int) ≤ (n : Int) := by exact_mod_cast hn
  unfold assignedIndex
  rcases assignResolve kvs name with _ | v
  · simp only []
    exact ⟨le_refl 0, by omega⟩
  · simp only []
    rcases coerceSpecIndex v with _ | idx
    · simp only []
      exact ⟨le_refl 0, by omega⟩
    · simp only []
      exact ⟨le_max_left 0 _, max_le (by omega) inf_le_right⟩

/-- Inversion of `assign_formatting_by_llm` returning a mapping: the reply
parsed to a dict and the mapping is the normalization fold over it. -/
theorem assign_formatting_some (oracle : Except (List Char) (List Char))
    (section_names : List (List Char)) (applyables : List Json)
    (m : List (List Char × Int))
    (hm : (assign_formatting_by_llm oracle section_names applyables).1 =
      some m) :
    ∃ kvs response, oracle = .ok response ∧
      extract_json_from_llm response = .ok (.obj kvs) ∧
      section_names.isEmpty = false ∧ applyables.isEmpty = false ∧
      m = section_names.foldl (fun result name =>
        dictInsert result name
          (assignedIndex kvs name applyables.length)) [] := by
  unfold assign_formatting_by_llm at hm
  by_cases hemp : (section_names.isEmpty || applyables.isEmpty) = true
  · rw [if_pos hemp] at hm
    simp at hm
  · rw [if_neg hemp] at hm
    simp only [Bool.or_eq_true, not_or, Bool.not_eq_true] at hemp
    rcases oracle with e | response
    · simp at hm
    · simp only [] at hm
      cases hj : extract_json_from_llm response with
      | error e => rw [hj] at hm; simp at hm
      | ok data =>
          rw [hj] at hm
          cases data with
          | obj kvs =>
              simp only [] at hm
              injection hm with hm
              exact ⟨kvs, response, rfl, hj, hemp.1, hemp.2, hm.symm⟩
          | null => simp at hm
          | bool b => simp at hm
          | num n2 => simp at hm
          | str s => simp at hm
          | arr xs => simp at hm

/-- C8: whenever `assign_formatting_by_llm` returns a mapping, its key set
is exactly the requested section names, with every value clamped into
`[0, len(applyables) - 1]`; a name whose value is missing from or
uncoercible in the parsed reply maps to index 0; and an empty section list
or empty applyable list short-circuits to `none` without calling the model
(second component of the result: whether a call was issued). -/
theorem assign_formatting_clamps_and_defaults
    (oracle : Except (List Char) (List Char))
    (section_names : List (List Char)) (applyables : List Json) :
    (section_names = [] ∨ applyables = [] →
      assign_formatting_by_llm oracle section_names applyables =
        (none, false)) ∧
    (∀ m, (assign_formatting_by_llm oracle section_names applyables).1 =
        some m →
      (∀ name ∈ section_names, ∃ v, dictGet? m name = some v ∧
        0 ≤ v ∧ v ≤ (applyables.length : Int) - 1) ∧
      (∀ k v, (k, v) ∈ m → k ∈ section_names)) ∧
    (∀ response kvs m, oracle = .ok response →
      extract_json_from_llm response = .ok (.obj kvs) →
      (assign_formatting_by_llm oracle section_names applyables).1 = some m →
      ∀ name ∈ section_names,
        (assignResolve kvs name = none ∨
         ∃ v, assignResolve kvs name = some v ∧ coerceSpecIndex v = none) →
        dictGet? m name = some 0) := by
  refine ⟨?_, ?_, ?_⟩
  · intro h
    rcases h with h | h <;> simp [assign_formatting_by_llm, h]
  · intro m hm
    obtain ⟨kvs, response, hor, hj, hne, hae, hmeq⟩ :=
      assign_formatting_some oracle section_names applyables m hm
    have hn : 1 ≤ applyables.length := by
      cases applyables with
      | nil => simp at hae
      | cons a l => simp
    subst hmeq
    constructor
    · intro name hname
      refine ⟨assignedIndex kvs name applyables.length, ?_,
        (assignedIndex_range kvs name applyables.length hn).1,
        (assignedIndex_range kvs name applyables.length hn).2⟩
      rw [assignFold_get (fun nm => assignedIndex kvs nm applyables.length)
        section_names [] name, if_pos hname]
    · intro k v hkv
      rcases assignFold_keys
          (fun nm => assignedIndex kvs nm applyables.length)
          section_names [] k v hkv with h | h
      · simp at h
      · exact h
  · intro response kvs m hor hj hm name hname hbad
    obtain ⟨kvs2, response2, hor2, hj2, hne, hae, hmeq⟩ :=
      assign_formatting_some oracle section_names applyables m hm
    rw [hor] at hor2
    injection hor2 with hresp
    rw [← hresp, hj] at hj2
    injection hj2 with hj2
    injection hj2 with hj2
    subst hj2
    subst hmeq
    rw [assignFold_get (fun nm => assignedIndex kvs nm applyables.length)
      section_names [] name, if_pos hname]
    have hzero : assignedIndex kvs name applyables.length = 0 := by
      unfold assignedIndex
      rcases hbad with h | ⟨v, hv, hc⟩
      · rw [h]
      · rw [hv]
        simp only []
        rw [hc]
    rw [hzero]
/-- C8 witness: five sections, three applyables; exercises an in-range
value, a numeric string, clamping from above, a `null` (unresolved → 0) and
a missing name (→ 0), plus the empty-input short-circuit. -/
theorem assign_formatting_clamps_and_defaults_witness :
    (assign_formatting_by_llm
      (.ok "\x7b\"A\": 1, \"B\": \"2\", \"C\": 99, \"D\": null\x7d".data)
      ["A".data, "B".data, "C".data, "D".data, "E".data]
      [.obj [], .obj [], .obj []]).1 =
      some [("A".data, 1), ("B".data, 2), ("C".data, 2),
            ("D".data, 0), ("E".data, 0)] ∧
    (∀ name ∈ ["A".data, "B".data, "C".data, "D".data, "E".data],
      ∃ v, dictGet? [("A".data, (1 : Int)), ("B".data, 2), ("C".data, 2),
            ("D".data, 0), ("E".data, 0)] name = some v ∧
        0 ≤ v ∧ v ≤ (3 : Int) - 1) ∧
    assign_formatting_by_llm (.ok "irrelevant".data) [] [.obj []] =
      (none, false) := by
  refine ⟨by decide, ?_, ?_⟩
  · have h := (assign_formatting_clamps_and_defaults
      (.ok "\x7b\"A\": 1, \"B\": \"2\", \"C\": 99, \"D\": null\x7d".data)
      ["A".data, "B".data, "C".data, "D".data, "E".data]
      [.obj [], .obj [], .obj []]).2.1
      [("A".data, 1), ("B".data, 2), ("C".data, 2),
       ("D".data, 0), ("E".data, 0)] (by decide)
    simpa using h.1
  · exact (assign_formatting_clamps_and_defaults
      (.ok "irrelevant".data) [] [.obj []]).1 (Or.inl rfl)

/-- C2: the code contradicts its own stated intent (`Strip leading text
before first { or [`).  When the fenced content is the JSON object
`{"a": [1, 2]}`, the leading-prose strip loop falls through on the `{` at
position 0 (no `break` when `pos == 0`), then cuts the text at the interior
`[`, and brace-matching recovers only the inner array: extraction returns
`[1, 2]` while parsing the fenced content directly yields the whole
object. -/
theorem extract_json_fenced_object_strips_into_array :
    extract_json_from_llm
      "Here is the JSON:\n```json\n\x7b\"a\": [1, 2]\x7d\n```\nThanks.".data =
      .ok (.arr [.num 1, .num 2]) ∧
    json_loads "\x7b\"a\": [1, 2]\x7d".data =
      some (.obj [("a".data, .arr [.num 1, .num 2])]) := by
  constructor <;> decide

/-- C9 counterexample: a section whose generated text consists solely of a
line that normalizes to the section name.  The claim requires that line to
be removed (yielding an empty contribution and an empty assembled
document), but `_strip_leading_section_title` returns the original text
when the remainder after dropping the title line is empty, so the line
survives into the assembled output. -/
theorem assemble_keeps_sole_title_line :
    assemble { sections := [⟨1, "Case Caption".data, []⟩] }
      [("Case Caption".data, "Case Caption".data)] = "Case Caption".data ∧
    pyLower (normalizeTitleLine "Case Caption".data) =
      pyLower (normalizeSectionName "Case Caption".data) := by
  constructor <;> decide

/-- C9 amended: in assembly, a section text whose first line normalizes
(leading enumeration characters and markdown emphasis stripped,
case-insensitive) to the section name has that line removed — provided the
remaining lines contain non-whitespace content; a text consisting solely of
such a title line is returned unchanged, as is any text whose first line
does not match. -/
theorem strip_leading_title_amended (text name : List Char)
    (htext : ¬text.isEmpty) (hname : ¬name.isEmpty)
    (first : List Char) (restLines : List (List Char))
    (hsplit : splitlines (pyStrip text) = first :: restLines) :
    (pyLower (normalizeTitleLine first) = pyLower (normalizeSectionName name) →
      (¬(pyStrip (joinWith ['\n'] restLines)).isEmpty →
        _strip_leading_section_title text name =
          pyStrip (joinWith ['\n'] restLines)) ∧
      ((pyStrip (joinWith ['\n'] restLines)).isEmpty →
        _strip_leading_section_title text name = text)) ∧
    (pyLower (normalizeTitleLine first) ≠ pyLower (normalizeSectionName name) →
      _strip_leading_section_title text name = text) := by
  unfold _strip_leading_section_title
  rw [if_neg (by simp [Bool.not_eq_true] at htext hname ⊢; exact ⟨htext, hname⟩),
    hsplit]
  simp only []
  constructor
  · intro hmatch
    rw [if_pos hmatch]
    constructor
    · intro hrest
      rw [if_neg (by simpa using hrest)]
    · intro hrest
      rw [if_pos (by simpa using hrest)]
  · intro hmatch
    rw [if_neg hmatch]

/-- C9 witness: a numbered self-title line over body text is dropped; a
non-matching first line passes through unchanged. -/
theorem strip_leading_title_amended_witness :
    _strip_leading_section_title "1. Case Caption\nBody text.".data
      "Case Caption".data = "Body text.".data ∧
    _strip_leading_section_title "Intro line\nBody".data
      "Case Caption".data = "Intro line\nBody".data := by
  have h1 := strip_leading_title_amended "1. Case Caption\nBody text.".data
    "Case Caption".data (by decide) (by decide)
    "1. Case Caption".data ["Body text.".data] (by decide)
  have h2 := strip_leading_title_amended "Intro line\nBody".data
    "Case Caption".data (by decide) (by decide)
    "Intro line".data ["Body".data] (by decide)
  constructor
  · have h := (h1.1 (by decide)).1 (by decide)
    rw [h]
    decide
  · exact h2.2 (by decide)

/-- C10: for a paragraph whose line-spacing rule is not single-spacing and
whose stored value is truthy, a stored value strictly below 10 is reported
as a multiple of lines and a stored value at or above 10 as exact point
spacing (the boundary sits exactly at 10): a stored multiple of 1.5 is
reported as `1.5 lines`, and an exact 24 pt spacing (stored as a Length of
24 · 12700 EMU) is reported as `24 pt`. -/
theorem line_spacing_boundary_at_ten (rule : Option Int)
    (v : LineSpacingValue) (hrule : rule ≠ some 0) (hv : v.pyTruthy) :
    (v.raw < 10 → get_line_spacing rule (some v) = .lines v.raw) ∧
    (10 ≤ v.raw → get_line_spacing rule (some v) = .pt (format_unit_pt v)) ∧
    get_line_spacing rule (some (.plain (3 / 2))) = .lines (3 / 2) ∧
    get_line_spacing rule (some (.length (24 * 12700))) = .pt 24 := by
  refine ⟨?_, ?_, ?_, ?_⟩
  · intro h
    simp [get_line_spacing, hrule, hv, h]
  · intro h
    simp [get_line_spacing, hrule, hv, not_lt.mpr h]
  · simp [get_line_spacing, hrule, LineSpacingValue.pyTruthy,
      LineSpacingValue.raw]
    norm_num
  · simp [get_line_spacing, hrule, LineSpacingValue.pyTruthy,
      LineSpacingValue.raw, format_unit_pt]
    norm_num

/-- C10 witness: a non-single rule (`4`, multiple) with the two concrete
stored values of the claim. -/
theorem line_spacing_boundary_at_ten_witness :
    get_line_spacing (some 4) (some (.plain (3 / 2))) = .lines (3 / 2) ∧
    get_line_spacing (some 4) (some (.length (24 * 12700))) = .pt 24 := by
  have h := line_spacing_boundary_at_ten (some 4) (.plain (3 / 2))
    (by decide)
    (by norm_num [LineSpacingValue.pyTruthy, LineSpacingValue.raw])
  exact ⟨h.2.2.1, h.2.2.2⟩

/-- C3 witness: a concrete raising oracle on a motion-flavoured document. -/
theorem generate_discovery_failure_uses_template_witness :
    let oracle : LLMOracle :=
      { discovery := fun _ _ => .error "connection reset".data
        structuring := fun _ => .error "unused".data }
    (generate oracle "notice of motion to dismiss".data "exhibit".data).1.fallback_used
      = some true ∧
    (generate oracle "notice of motion to dismiss".data "exhibit".data).1.sections.length
      = 6 := by
  have h := generate_discovery_failure_uses_template
    { discovery := fun _ _ => .error "connection reset".data
      structuring := fun _ => .error "unused".data }
    "notice of motion to dismiss".data "exhibit".data
    "connection reset".data rfl
  refine ⟨h.1, ?_⟩
  rw [h.2.2]
  decide

end Sandc
